import Mathlib

/-!
# Host registry of crocodile: `core/model/host.go` and `core/router/api/v1/host/host.go`

A shallow embedding of the host registry.

* The table `crocodile_host` is a list of rows (`Store`).  Every SQL statement of
  the source becomes a pure function on that list.  Acquiring a connection and
  preparing / executing a well-formed statement succeed; the errors that remain
  are the ones the registry logic itself can cause (a malformed statement, a
  violated table constraint, "can not find hostid").
* `time.Now().Unix()` is an explicit argument `now`, `utils.GetID()` an explicit
  argument `newid`.
* Go `int64` values are integers; the one addition the source performs on them
  (`LastUpdateTimeUnix+maxWorkerTTL`) wraps modulo `2^64` (`wrapInt64`).
* String comparison in `WHERE` clauses is exact equality.
* Go strings are Lean strings; `","` is one byte, so splitting and joining on it
  act alike on bytes and on characters.
* A call reads the clock once; every column of a row holds a value, so
  `rows.Scan` succeeds on every row.
* A handler's answer is the list of `resp.JSON` calls it makes, in order.
-/

namespace Crocodile

/-! ## Go strings: `strings.Join` and `strings.Split` with separator `","` -/

/-- Body of `strings.Join(elems, ",")` on character lists. -/
def joinComma : List (List Char) → List Char
  | [] => []
  | [w] => w
  | w :: v :: ws => w ++ ',' :: joinComma (v :: ws)

/-- Body of `strings.Split(s, ",")` on a character list: the pieces between
commas; the empty string splits into one empty piece. -/
def splitComma : List Char → List (List Char)
  | [] => [[]]
  | c :: cs =>
    if c = ',' then [] :: splitComma cs
    else
      match splitComma cs with
      | [] => [[c]]
      | w :: ws => (c :: w) :: ws

/-- Go `strings.Join(elems, ",")`. -/
def stringsJoin (elems : List String) : String :=
  String.mk (joinComma (elems.map String.data))

/-- Go `strings.Split(s, ",")`. -/
def stringsSplit (s : String) : List String :=
  (splitComma s.data).map String.mk

/-! ## Machine integers -/

/-- Two's-complement wrap of an integer into the `int64` range. -/
def wrapInt64 (x : Int) : Int :=
  (x + 9223372036854775808) % 18446744073709551616 - 9223372036854775808

/-- Largest `int64`. -/
def maxInt64 : Int := 9223372036854775807

/-- Smallest `int64`. -/
def minInt64 : Int := -9223372036854775808

/-! ## Data model -/

deriving instance DecidableEq for Except

/-- Errors the registry logic can produce. -/
inductive Err
  | prepareContext
  | execContext
  | canNotFindHostid
  | getHostGroups
  deriving DecidableEq, Repr

/-- One row of table `crocodile_host` (the columns named by the statements of
`host.go`). -/
structure Row where
  id : String
  hostname : String
  addr : String
  weight : Int
  version : String
  lastUpdateTimeUnix : Int
  remark : String
  runningTasks : String
  stop : Int
  deriving DecidableEq, Repr

/-- The table `crocodile_host`. -/
abbrev Store := List Row

/-- The view `define.Host` filled by `getHosts`. -/
structure Host where
  ID : String
  Addr : String
  HostName : String
  RunningTasks : List String
  Weight : Int
  Stop : Int
  Version : String
  LastUpdateTimeUnix : Int
  Online : Int
  LastUpdateTime : String
  deriving DecidableEq, Repr

/-- The request `pb.RegistryReq`. -/
structure RegistryReq where
  Ip : String
  Port : Int
  Hostname : String
  Weight : Int
  Version : String
  Remark : String
  deriving DecidableEq, Repr

/-- The view `define.HostGroup`, as far as the handlers read it. -/
structure HostGroup where
  ID : String
  HostsID : List String
  deriving DecidableEq, Repr

/-- The request body `define.GetID`. -/
structure GetID where
  ID : String
  deriving DecidableEq, Repr

/-- Helpers of package `utils` that the registry calls and whose code lies
outside `host.go`: they are parameters of the embedding. -/
structure Env where
  /-- The formatter `utils.UnixToStr`. -/
  UnixToStr : Int → String
  /-- Whether `utils.CheckID` accepts the id (returns `nil`). -/
  CheckID : String → Bool

/-- An environment for evaluating examples: decimal timestamps, every id
well-formed. -/
def Env.sample : Env := ⟨fun t => toString t, fun _ => true⟩

namespace model

/-- The constant `maxWorkerTTL`. -/
def maxWorkerTTL : Int := 20

/-- The address `fmt.Sprintf("%s:%d", ip, port)`. -/
def sprintfAddr (ip : String) (port : Int) : String :=
  ip ++ ":" ++ toString port

/-- Body of the `rows.Next()` loop of `getHosts`: one scanned row becomes one
`define.Host`. -/
def scanRow (E : Env) (now : Int) (r : Row) : Host :=
  { ID := r.id
    Addr := r.addr
    HostName := r.hostname
    RunningTasks := if r.runningTasks ≠ "" then stringsSplit r.runningTasks else []
    Weight := r.weight
    Stop := r.stop
    Version := r.version
    LastUpdateTimeUnix := r.lastUpdateTimeUnix
    Online := if wrapInt64 (r.lastUpdateTimeUnix + maxWorkerTTL) > now then 1 else 0
    LastUpdateTime := E.UnixToStr r.lastUpdateTimeUnix }

/-- Rows selected by the statement `getHosts` builds: `WHERE addr=?` when
`addr` is not empty, `WHERE id=? OR id=? ...` when `ids` is not empty. -/
def selectRows (db : Store) (addr : String) (ids : List String) : List Row :=
  db.filter (fun r => (decide (addr = "") || decide (r.addr = addr)) &&
    (decide (ids = []) || decide (r.id ∈ ids)))

/-- The function `getHosts`.  With both `addr` and `ids` given the statement has
two `WHERE` clauses and cannot be prepared.  `LIMIT ? OFFSET ?` is added when
`limit > 0` (a negative offset reads as 0). -/
def getHosts (E : Env) (db : Store) (now : Int) (addr : String) (ids : List String)
    (offset limit : Int) : Except Err (List Host) :=
  if addr ≠ "" ∧ ids.length > 0 then .error .prepareContext
  else
    let rows := selectRows db addr ids
    let page := if limit > 0 then (rows.drop offset.toNat).take limit.toNat else rows
    .ok (page.map (scanRow E now))

/-- The function `GetHosts`. -/
def GetHosts (E : Env) (db : Store) (now : Int) (offset limit : Int) :
    Except Err (List Host) :=
  getHosts E db now "" [] offset limit

/-- The function `GetHostByAddr`. -/
def GetHostByAddr (E : Env) (db : Store) (now : Int) (addr : String) : Except Err Host :=
  match getHosts E db now addr [] 0 0 with
  | .error e => .error e
  | .ok hosts =>
    match hosts with
    | [h] => .ok h
    | _ => .error .canNotFindHostid

/-- The function `GetHostByID`. -/
def GetHostByID (E : Env) (db : Store) (now : Int) (id : String) : Except Err Host :=
  match getHosts E db now "" [id] 0 0 with
  | .error e => .error e
  | .ok hosts =>
    match hosts with
    | [h] => .ok h
    | _ => .error .canNotFindHostid

/-- The function `GetHostByIDS`. -/
def GetHostByIDS (E : Env) (db : Store) (now : Int) (ids : List String) :
    Except Err (List Host) :=
  match getHosts E db now "" ids 0 0 with
  | .error e => .error e
  | .ok hosts => if hosts.length ≠ 1 then .error .canNotFindHostid else .ok hosts

/-- Modelled from the spec: the declaration of table `crocodile_host` is not
among the sources.  The spec gives "a single table keyed by `id` with a
uniqueness constraint on `address`", and a new record has "`runningTasks =
empty`, `stop = false`": the `INSERT` of `RegistryNewHost` names neither column,
so both take the column default.  The insert is refused when the key or the
address is already present. -/
def insertHost (db : Store) (id hostname addr : String) (weight : Int) (version : String)
    (lastUpdateTimeUnix : Int) (remark : String) : Except Err Unit × Store :=
  if db.any (fun r => decide (r.id = id) || decide (r.addr = addr)) then
    (.error .execContext, db)
  else
    (.ok (), db ++ [{ id := id, hostname := hostname, addr := addr, weight := weight,
                      version := version, lastUpdateTimeUnix := lastUpdateTimeUnix,
                      remark := remark, runningTasks := "", stop := 0 }])

/-- The function `RegistryNewHost`; `newid` is the value of `utils.GetID()`. -/
def RegistryNewHost (E : Env) (db : Store) (now : Int) (newid : String)
    (req : RegistryReq) : Except Err String × Store :=
  let addr := sprintfAddr req.Ip req.Port
  match getHosts E db now addr [] 0 0 with
  | .error e => (.error e, db)
  | .ok hosts =>
    if hosts.length = 1 then (.ok "", db)
    else
      match insertHost db newid req.Hostname addr req.Weight req.Version now req.Remark with
      | (.error e, db1) => (.error e, db1)
      | (.ok _, db1) => (.ok newid, db1)

/-- The row that the `INSERT` of `RegistryNewHost` writes for request `req`, generated
id `newid` and time `now`. -/
def newRow (now : Int) (newid : String) (req : RegistryReq) : Row :=
  { id := newid, hostname := req.Hostname, addr := sprintfAddr req.Ip req.Port,
    weight := req.Weight, version := req.Version, lastUpdateTimeUnix := now,
    remark := req.Remark, runningTasks := "", stop := 0 }

/-- The function `UpdateHostHearbeat`:
`UPDATE crocodile_host set lastUpdateTimeUnix=?,runningTasks=? WHERE addr=?`. -/
def UpdateHostHearbeat (db : Store) (now : Int) (ip : String) (port : Int)
    (runningtasks : List String) : Except Err Unit × Store :=
  (.ok (), db.map (fun r =>
    if r.addr = sprintfAddr ip port then
      { r with lastUpdateTimeUnix := now, runningTasks := stringsJoin runningtasks }
    else r))

/-- The function `StopHost`: `UPDATE crocodile_host SET stop=?`.  The statement
has no `WHERE` clause and `hostid` is not bound to it. -/
def StopHost (db : Store) (_hostid : String) (stop : Int) : Except Err Unit × Store :=
  (.ok (), db.map (fun r => { r with stop := stop }))

/-- First step of `DeleteHost`: the call `StopHost(ctx, hostid, 0)`. -/
def DeleteHost.stopStep (db : Store) (hostid : String) : Except Err Unit × Store :=
  StopHost db hostid 0

/-- The function `DeleteHost`: the stop step, then
`DELETE FROM crocodile_host WHERE id=?`. -/
def DeleteHost (db : Store) (hostid : String) : Except Err Unit × Store :=
  match DeleteHost.stopStep db hostid with
  | (.error e, db1) => (.error e, db1)
  | (.ok _, db1) => (.ok (), db1.filter (fun r => decide (r.id ≠ hostid)))

end model

/-- The answers of package `resp` that the host handlers send. -/
inductive Resp
  | Success
  | ErrBadRequest
  | ErrInternalServer
  | ErrDelHostUseByOtherHG
  deriving DecidableEq, Repr

namespace host

/-- The nested loops of handler `DeleteHost` over the host groups: one
`resp.JSON(c, resp.ErrDelHostUseByOtherHG, nil)` for every occurrence of the id;
the loops have no `return`. -/
def scanHostGroups (id : String) (hostgroups : List HostGroup) : List Resp :=
  hostgroups.flatMap (fun hostgroup =>
    hostgroup.HostsID.filterMap (fun hid =>
      if id = hid then some Resp.ErrDelHostUseByOtherHG else none))

/-- The handler `DeleteHost`.  `body` is the outcome of `c.ShouldBindJSON`,
`hostgroups` the outcome of `model.GetHostGroups(ctx, 0, 0)`.  The result is the
list of answers written and the store afterwards. -/
def DeleteHost (E : Env) (db : Store) (body : Option GetID)
    (hostgroups : Except Err (List HostGroup)) : List Resp × Store :=
  match body with
  | none => ([Resp.ErrBadRequest], db)
  | some gethost =>
    if E.CheckID gethost.ID = false then ([Resp.ErrBadRequest], db)
    else
      match hostgroups with
      | .error _ => ([Resp.ErrInternalServer], db)
      | .ok hgs =>
        let written := scanHostGroups gethost.ID hgs
        match model.DeleteHost db gethost.ID with
        | (.error _, db1) => (written ++ [Resp.ErrInternalServer], db1)
        | (.ok _, db1) => (written ++ [Resp.Success], db1)

/-- The handler `ChangeHostState`. -/
def ChangeHostState (E : Env) (db : Store) (now : Int) (body : Option GetID) :
    List Resp × Store :=
  match body with
  | none => ([Resp.ErrBadRequest], db)
  | some hosttask =>
    if E.CheckID hosttask.ID = false then ([Resp.ErrBadRequest], db)
    else
      match model.GetHostByID E db now hosttask.ID with
      | .error _ => ([Resp.ErrInternalServer], db)
      | .ok h =>
        match model.StopHost db hosttask.ID (Int.xor h.Stop 1) with
        | (.error _, db1) => ([Resp.ErrInternalServer], db1)
        | (.ok _, db1) => ([Resp.Success], db1)

end host

end Crocodile

/-! ## Sample data -/

namespace Crocodile

/-- A registered host `h1` at `10.0.0.1:9000`, last heartbeat at time 0, running. -/
def rowA : Row :=
  { id := "h1", hostname := "alpha", addr := "10.0.0.1:9000", weight := 100,
    version := "v1", lastUpdateTimeUnix := 0, remark := "", runningTasks := "", stop := 0 }

/-- A second registered host `h2` at `10.0.0.2:9000`, running. -/
def rowB : Row :=
  { id := "h2", hostname := "beta", addr := "10.0.0.2:9000", weight := 100,
    version := "v1", lastUpdateTimeUnix := 0, remark := "", runningTasks := "", stop := 0 }

/-- The host `h1` in the stopped state. -/
def rowStopped : Row := { rowA with stop := 1 }

/-- The host `h1` with a last-heartbeat timestamp 7 below the largest `int64`. -/
def rowFar : Row := { rowA with lastUpdateTimeUnix := 9223372036854775800 }

/-- A host group that has `h1` as a member. -/
def groupG : HostGroup := { ID := "g1", HostsID := ["h1"] }

/-- Address uniqueness: at most one row per address. -/
def AddrUnique (db : Store) : Prop :=
  ∀ a : String, (db.filter (fun r => decide (r.addr = a))).length ≤ 1

/-! ## Auxiliary facts -/

theorem wrapInt64_of_inRange (x : Int) (hlo : minInt64 ≤ x) (hhi : x ≤ maxInt64) :
    wrapInt64 x = x := by
  unfold wrapInt64
  unfold minInt64 at hlo
  unfold maxInt64 at hhi
  omega

namespace model

theorem getHosts_noIds (E : Env) (db : Store) (now : Int) (addr : String) :
    getHosts E db now addr [] 0 0 = .ok ((selectRows db addr []).map (scanRow E now)) := by
  simp [getHosts]

theorem getHosts_noAddr (E : Env) (db : Store) (now : Int) (ids : List String) :
    getHosts E db now "" ids 0 0 = .ok ((selectRows db "" ids).map (scanRow E now)) := by
  simp [getHosts]

theorem getHosts_mem (E : Env) (db : Store) (now : Int) (addr : String) (ids : List String)
    (offset limit : Int) (hosts : List Host) (h : Host)
    (hget : getHosts E db now addr ids offset limit = .ok hosts) (hmem : h ∈ hosts) :
    ∃ r ∈ db, h = scanRow E now r := by
  unfold getHosts at hget
  split at hget
  · cases hget
  · injection hget with hget
    subst hget
    obtain ⟨r, hr, rfl⟩ := List.mem_map.mp hmem
    refine ⟨r, ?_, rfl⟩
    have hsel : r ∈ selectRows db addr ids := by
      split at hr
      · exact List.mem_of_mem_drop (List.mem_of_mem_take hr)
      · exact hr
    exact (List.mem_filter.mp hsel).1

theorem scanRow_online (E : Env) (now : Int) (r : Row)
    (hlo : minInt64 ≤ r.lastUpdateTimeUnix)
    (hhi : r.lastUpdateTimeUnix + maxWorkerTTL ≤ maxInt64) :
    (scanRow E now r).Online = if r.lastUpdateTimeUnix + 20 > now then 1 else 0 := by
  have hw : wrapInt64 (r.lastUpdateTimeUnix + maxWorkerTTL) = r.lastUpdateTimeUnix + 20 := by
    rw [wrapInt64_of_inRange _ (by unfold maxWorkerTTL; omega) hhi]
    rfl
  simp only [scanRow, hw]

end model

/-! ## Liveness (C2, C8) -/

open model in
/-- Counterexample to C2: the stored record `h1` with last-heartbeat timestamp
`t = 9223372036854775800`, an `int64`, read at `now = 1793790793`: `t + 20 > now`
holds, the sum `t + 20` overflows `int64`, and `getHosts` reports `Online = 0`. -/
theorem getHosts_online_overflow_counterexample :
    rowFar.lastUpdateTimeUnix = 9223372036854775800 ∧
    minInt64 ≤ rowFar.lastUpdateTimeUnix ∧ rowFar.lastUpdateTimeUnix ≤ maxInt64 ∧
    getHosts Env.sample [rowFar] 1793790793 "" [] 0 0 =
      .ok [scanRow Env.sample 1793790793 rowFar] ∧
    (scanRow Env.sample 1793790793 rowFar).Online = 0 ∧
    rowFar.lastUpdateTimeUnix + 20 > 1793790793 ∧
    ¬ ((scanRow Env.sample 1793790793 rowFar).Online = 1 ↔
        rowFar.lastUpdateTimeUnix + 20 > 1793790793) := by
  decide

open model in
/-- C2 (amended): every host that `getHosts` returns is the view of a stored
record with the same id and last-heartbeat timestamp `t`; when `t` is an `int64`
whose sum `t + 20` does not overflow (`t + 20 ≤ 2^63 - 1`), the host carries
`Online = 1` exactly when `t + 20 > now`, and `Online = 0` otherwise, whatever the
store, the query and the other columns are. -/
theorem getHosts_online_iff (E : Env) (db : Store) (now : Int) (addr : String)
    (ids : List String) (offset limit : Int) (hosts : List Host) (h : Host)
    (hget : getHosts E db now addr ids offset limit = .ok hosts) (hmem : h ∈ hosts)
    (hlo : minInt64 ≤ h.LastUpdateTimeUnix)
    (hhi : h.LastUpdateTimeUnix + maxWorkerTTL ≤ maxInt64) :
    (∃ r ∈ db, r.id = h.ID ∧ r.lastUpdateTimeUnix = h.LastUpdateTimeUnix) ∧
    (h.Online = 1 ↔ h.LastUpdateTimeUnix + 20 > now) ∧
    (h.Online = 0 ↔ ¬ (h.LastUpdateTimeUnix + 20 > now)) := by
  obtain ⟨r, hr, rfl⟩ := getHosts_mem E db now addr ids offset limit hosts h hget hmem
  refine ⟨⟨r, hr, rfl, rfl⟩, ?_⟩
  have hon := scanRow_online E now r hlo hhi
  rw [hon]
  by_cases hc : r.lastUpdateTimeUnix + 20 > now
  · simp [scanRow, hc]
  · simp [scanRow, hc]

open model in
/-- Witness of C2 (amended): host `h1` with last heartbeat 0, read at time 19, is
online. -/
theorem getHosts_online_iff_witness :
    getHosts Env.sample [rowA] 19 "" [] 0 0 = .ok [scanRow Env.sample 19 rowA] ∧
    minInt64 ≤ (scanRow Env.sample 19 rowA).LastUpdateTimeUnix ∧
    (scanRow Env.sample 19 rowA).LastUpdateTimeUnix + maxWorkerTTL ≤ maxInt64 ∧
    (∃ r ∈ [rowA], r.id = (scanRow Env.sample 19 rowA).ID ∧
      r.lastUpdateTimeUnix = (scanRow Env.sample 19 rowA).LastUpdateTimeUnix) ∧
    ((scanRow Env.sample 19 rowA).Online = 1 ↔
      (scanRow Env.sample 19 rowA).LastUpdateTimeUnix + 20 > 19) ∧
    ((scanRow Env.sample 19 rowA).Online = 0 ↔
      ¬ ((scanRow Env.sample 19 rowA).LastUpdateTimeUnix + 20 > 19)) :=
  ⟨by decide, by decide, by decide,
   getHosts_online_iff Env.sample [rowA] 19 "" [] 0 0 [scanRow Env.sample 19 rowA]
     (scanRow Env.sample 19 rowA) (by decide) (by simp) (by decide) (by decide)⟩

open model in
/-- Counterexample to C8: a host whose last heartbeat is at 0, read at time 20,
has `now - t ≤ 20` and is reported offline. -/
theorem online_at_window_end_counterexample :
    getHosts Env.sample [rowA] 20 "" [] 0 0 = .ok [scanRow Env.sample 20 rowA] ∧
    (scanRow Env.sample 20 rowA).LastUpdateTimeUnix = 0 ∧
    ¬ ((scanRow Env.sample 20 rowA).Online = 1 ↔
        20 - (scanRow Env.sample 20 rowA).LastUpdateTimeUnix ≤ maxWorkerTTL) := by
  decide

open model in
/-- C8 (amended): every host that `getHosts` returns carries `Online = 1` exactly
when `now - t < maxWorkerTTL = 20`, strictly: at `now = t + 20` the host is
offline (`t` an `int64` whose sum `t + 20` does not overflow). -/
theorem getHosts_online_iff_lt_window (E : Env) (db : Store) (now : Int) (addr : String)
    (ids : List String) (offset limit : Int) (hosts : List Host) (h : Host)
    (hget : getHosts E db now addr ids offset limit = .ok hosts) (hmem : h ∈ hosts)
    (hlo : minInt64 ≤ h.LastUpdateTimeUnix)
    (hhi : h.LastUpdateTimeUnix + maxWorkerTTL ≤ maxInt64) :
    (h.Online = 1 ↔ now - h.LastUpdateTimeUnix < maxWorkerTTL) ∧
    (now = h.LastUpdateTimeUnix + maxWorkerTTL → h.Online = 0) := by
  obtain ⟨r, _, rfl⟩ := getHosts_mem E db now addr ids offset limit hosts h hget hmem
  have hon := scanRow_online E now r hlo hhi
  rw [hon]
  have hL : (scanRow E now r).LastUpdateTimeUnix = r.lastUpdateTimeUnix := rfl
  rw [hL]
  unfold maxWorkerTTL
  by_cases hc : r.lastUpdateTimeUnix + 20 > now
  · simp only [hc, if_true, true_iff]
    constructor
    · omega
    · intro h20; omega
  · simp only [hc, if_false]
    constructor
    · constructor
      · intro h01; omega
      · intro hlt; omega
    · intro _; trivial

open model in
/-- Witness of C8 (amended): host `h1` with last heartbeat 0, read at time 20. -/
theorem getHosts_online_iff_lt_window_witness :
    getHosts Env.sample [rowA] 20 "" [] 0 0 = .ok [scanRow Env.sample 20 rowA] ∧
    ((scanRow Env.sample 20 rowA).Online = 1 ↔
      20 - (scanRow Env.sample 20 rowA).LastUpdateTimeUnix < maxWorkerTTL) ∧
    ((20 : Int) = (scanRow Env.sample 20 rowA).LastUpdateTimeUnix + maxWorkerTTL →
      (scanRow Env.sample 20 rowA).Online = 0) :=
  ⟨by decide,
   getHosts_online_iff_lt_window Env.sample [rowA] 20 "" [] 0 0 [scanRow Env.sample 20 rowA]
     (scanRow Env.sample 20 rowA) (by decide) (by simp) (by decide) (by decide)⟩

/-! ## Deletion and stop (C1, C6, C7), batch lookup (C5) -/

/-- C1: handler `DeleteHost` on a host that group `g1` still lists: the conflict
answer is written, the handler goes on to `model.DeleteHost`, writes `Success`
as well, and the record is gone from the store. -/
theorem DeleteHost_referenced_host_is_deleted :
    host.DeleteHost Env.sample [rowA, rowB] (some { ID := "h1" }) (.ok [groupG]) =
      ([Resp.ErrDelHostUseByOtherHG, Resp.Success], [rowB]) ∧
    "h1" ∈ groupG.HostsID ∧ rowA.id = "h1" ∧ rowB.id ≠ "h1" := by
  decide

/-- C5: `GetHostByIDS` on a store holding `h1` and `h2`: asking for both ids, or
for an absent id alone, returns the error "can not find hostid"; a result is
returned only when exactly one row matches. -/
theorem GetHostByIDS_errors_unless_one_match :
    model.GetHostByIDS Env.sample [rowA, rowB] 0 ["h1", "h2"] = .error .canNotFindHostid ∧
    model.GetHostByIDS Env.sample [rowA, rowB] 0 ["h3"] = .error .canNotFindHostid ∧
    model.GetHostByIDS Env.sample [rowA, rowB] 0 ["h1", "h3"] =
      .ok [model.scanRow Env.sample 0 rowA] := by
  decide

/-- C6: `StopHost("h1", 1)` on a store holding the running hosts `h1` and `h2`
sets the stop flag of both rows. -/
theorem StopHost_sets_every_row :
    model.StopHost [rowA, rowB] "h1" 1 =
      (.ok (), [{ rowA with stop := 1 }, { rowB with stop := 1 }]) ∧
    rowB.id ≠ "h1" ∧ rowB.stop = 0 := by
  decide

/-- C7: the stop-flag write of `model.DeleteHost` on the stopped host `h1`
writes 0: after it the target's stop flag is 0, not 1. -/
theorem DeleteHost_stopStep_clears_stop :
    model.DeleteHost.stopStep [rowStopped] "h1" = (.ok (), [{ rowStopped with stop := 0 }]) ∧
    rowStopped.stop = 1 ∧
    model.DeleteHost.stopStep [rowA] "h1" = (.ok (), [rowA]) ∧ rowA.stop = 0 := by
  decide

theorem int_xor_one_twice (s : Int) : Int.xor (Int.xor s 1) 1 = s := by
  cases s with
  | ofNat m =>
    show Int.xor (Int.xor (Int.ofNat m) (Int.ofNat 1)) (Int.ofNat 1) = Int.ofNat m
    simp only [Int.xor]
    show ((((m ^^^ 1 : Nat) : Int)).xor (Int.ofNat 1)) = _
    simp only [Int.xor]
    rw [Nat.xor_assoc]; simp
  | negSucc m =>
    show Int.xor (Int.xor (Int.negSucc m) (Int.ofNat 1)) (Int.ofNat 1) = Int.negSucc m
    simp only [Int.xor]
    rw [Nat.xor_assoc]; simp

namespace model
theorem selectRows_single_id (db : Store) (id : String) :
    selectRows db "" [id] = db.filter (fun r => decide (r.id = id)) := by
  unfold selectRows
  congr 1
  funext r
  simp

theorem selectRows_addr (db : Store) (addr : String) :
    selectRows db addr [] = db.filter (fun r => decide (addr = "") || decide (r.addr = addr)) := by
  unfold selectRows
  congr 1
  funext r
  simp
end model

/-! ## Stop toggle (C10) -/

namespace model
theorem StopHost_filter_id (db : Store) (hostid : String) (s : Int) (h : String) :
    ((StopHost db hostid s).2).filter (fun r => decide (r.id = h)) =
      (db.filter (fun r => decide (r.id = h))).map (fun r => { r with stop := s }) := by
  simp only [StopHost, List.filter_map]
  rfl

theorem GetHostByID_of_unique (E : Env) (db : Store) (now : Int) (h : String) (r : Row)
    (hr : db.filter (fun r => decide (r.id = h)) = [r]) :
    GetHostByID E db now h = .ok (scanRow E now r) := by
  unfold GetHostByID
  rw [getHosts_noAddr, selectRows_single_id, hr]
  rfl
end model

namespace host
theorem ChangeHostState_of_unique (E : Env) (db : Store) (now : Int) (h : String) (r : Row)
    (hid : E.CheckID h = true)
    (hr : db.filter (fun r => decide (r.id = h)) = [r]) :
    ChangeHostState E db now (some { ID := h }) =
      ([Resp.Success], (model.StopHost db h (Int.xor r.stop 1)).2) := by
  simp only [ChangeHostState, hid, model.GetHostByID_of_unique E db now h r hr]
  rfl
end host

open model host in
/-- C10: on a store with exactly one record with id `h` (and `utils.CheckID`
accepting `h`), handler `ChangeHostState` applied twice answers `Success` both
times; read at any fixed time `now`, the host after the first toggle is the
original host with `Stop` replaced by `Stop XOR 1` and nothing else changed
(`RunningTasks`, `LastUpdateTimeUnix`, `Online` included), and the host after the
second toggle is the original host. -/
theorem ChangeHostState_twice_restores (E : Env) (db : Store) (now1 now2 now : Int)
    (h : String) (hid : E.CheckID h = true)
    (hone : (db.filter (fun r => decide (r.id = h))).length = 1) :
    ∃ h0 : Host,
      GetHostByID E db now h = .ok h0 ∧
      (ChangeHostState E db now1 (some { ID := h })).1 = [Resp.Success] ∧
      GetHostByID E (ChangeHostState E db now1 (some { ID := h })).2 now h =
        .ok { h0 with Stop := Int.xor h0.Stop 1 } ∧
      (ChangeHostState E (ChangeHostState E db now1 (some { ID := h })).2 now2
        (some { ID := h })).1 = [Resp.Success] ∧
      GetHostByID E (ChangeHostState E (ChangeHostState E db now1 (some { ID := h })).2 now2
        (some { ID := h })).2 now h = .ok h0 := by
  obtain ⟨r, hr⟩ := List.length_eq_one.mp hone
  have h1 := ChangeHostState_of_unique E db now1 h r hid hr
  have hr1 : (StopHost db h (Int.xor r.stop 1)).2.filter (fun r => decide (r.id = h)) =
      [{ r with stop := Int.xor r.stop 1 }] := by
    rw [StopHost_filter_id, hr]; rfl
  have h2 := ChangeHostState_of_unique E (StopHost db h (Int.xor r.stop 1)).2 now2 h _ hid hr1
  have hr2 : (StopHost (StopHost db h (Int.xor r.stop 1)).2 h
      (Int.xor (Int.xor r.stop 1) 1)).2.filter (fun r => decide (r.id = h)) = [r] := by
    rw [StopHost_filter_id, hr1, int_xor_one_twice]; rfl
  refine ⟨scanRow E now r, GetHostByID_of_unique E db now h r hr, ?_, ?_, ?_, ?_⟩
  · rw [h1]
  · rw [h1]
    exact GetHostByID_of_unique E _ now h _ hr1
  · rw [h1, h2]
  · rw [h1, h2]
    exact GetHostByID_of_unique E _ now h _ hr2

open model host in
/-- Witness of C10: toggling `h1` twice on the store holding `h1` and `h2`. -/
theorem ChangeHostState_twice_restores_witness :
    Env.sample.CheckID "h1" = true ∧
    ([rowA, rowB].filter (fun r => decide (r.id = "h1"))).length = 1 ∧
    ∃ h0 : Host,
      GetHostByID Env.sample [rowA, rowB] 7 "h1" = .ok h0 ∧
      (ChangeHostState Env.sample [rowA, rowB] 5 (some { ID := "h1" })).1 = [Resp.Success] ∧
      GetHostByID Env.sample
          (ChangeHostState Env.sample [rowA, rowB] 5 (some { ID := "h1" })).2 7 "h1" =
        .ok { h0 with Stop := Int.xor h0.Stop 1 } ∧
      (ChangeHostState Env.sample
          (ChangeHostState Env.sample [rowA, rowB] 5 (some { ID := "h1" })).2 6
          (some { ID := "h1" })).1 = [Resp.Success] ∧
      GetHostByID Env.sample
          (ChangeHostState Env.sample
            (ChangeHostState Env.sample [rowA, rowB] 5 (some { ID := "h1" })).2 6
            (some { ID := "h1" })).2 7 "h1" = .ok h0 :=
  ⟨rfl, by decide,
   ChangeHostState_twice_restores Env.sample [rowA, rowB] 5 6 7 "h1" rfl (by decide)⟩

namespace model
theorem sprintfAddr_ne_empty (ip : String) (port : Int) : sprintfAddr ip port ≠ "" := by
  intro hc
  have hl := congrArg String.length hc
  simp only [sprintfAddr, String.length_append] at hl
  have hcolon : ":".length = 1 := by decide
  have hz : "".length = 0 := by decide
  omega

theorem selectRows_sprintfAddr (db : Store) (ip : String) (port : Int) :
    selectRows db (sprintfAddr ip port) [] =
      db.filter (fun r => decide (r.addr = sprintfAddr ip port)) := by
  rw [selectRows_addr]
  congr 1
  funext r
  simp [sprintfAddr_ne_empty]

theorem RegistryNewHost_present (E : Env) (db : Store) (now : Int) (newid : String)
    (req : RegistryReq)
    (hone : (db.filter (fun r => decide (r.addr = sprintfAddr req.Ip req.Port))).length = 1) :
    RegistryNewHost E db now newid req = (.ok "", db) := by
  simp [RegistryNewHost, getHosts_noIds, selectRows_sprintfAddr, hone]

theorem RegistryNewHost_absent (E : Env) (db : Store) (now : Int) (newid : String)
    (req : RegistryReq)
    (habsent : ∀ r ∈ db, r.addr ≠ sprintfAddr req.Ip req.Port)
    (hfresh : ∀ r ∈ db, r.id ≠ newid) :
    RegistryNewHost E db now newid req = (.ok newid, db ++ [newRow now newid req]) := by
  have hfil : db.filter (fun r => decide (r.addr = sprintfAddr req.Ip req.Port)) = [] := by
    rw [List.filter_eq_nil_iff]
    intro r hr
    simpa using habsent r hr
  have hany : db.any (fun r => decide (r.id = newid) ||
      decide (r.addr = sprintfAddr req.Ip req.Port)) = false := by
    rw [List.any_eq_false]
    intro r hr
    simp [hfresh r hr, habsent r hr]
  simp [RegistryNewHost, getHosts_noIds, selectRows_sprintfAddr, hfil, insertHost, hany, newRow]
end model

theorem splitComma_ne_nil (s : List Char) : splitComma s ≠ [] := by
  induction s with
  | nil => simp [splitComma]
  | cons c cs ih =>
    unfold splitComma
    split
    · simp
    · split <;> simp

theorem splitComma_append_comma (w rest : List Char) (hw : ',' ∉ w) :
    splitComma (w ++ ',' :: rest) = w :: splitComma rest := by
  induction w with
  | nil => simp [splitComma]
  | cons c cs ih =>
    have hc : c ≠ ',' := fun h => hw (by simp [h])
    have hcs : ',' ∉ cs := fun h => hw (List.mem_cons_of_mem _ h)
    have ih2 := ih hcs
    simp only [List.cons_append, splitComma, hc, if_false]
    show (match splitComma (cs ++ ',' :: rest) with
      | [] => [[c]]
      | w :: ws => (c :: w) :: ws) = _
    rw [ih2]

theorem splitComma_of_no_comma (w : List Char) (hw : ',' ∉ w) : splitComma w = [w] := by
  induction w with
  | nil => simp [splitComma]
  | cons c cs ih =>
    have hc : c ≠ ',' := fun h => hw (by simp [h])
    have hcs : ',' ∉ cs := fun h => hw (List.mem_cons_of_mem _ h)
    simp only [splitComma, hc, if_false, ih hcs]

theorem splitComma_joinComma (l : List (List Char)) (hne : l ≠ [])
    (hl : ∀ w ∈ l, ',' ∉ w) : splitComma (joinComma l) = l := by
  induction l with
  | nil => exact absurd rfl hne
  | cons w ws ih =>
    cases ws with
    | nil => simpa [joinComma] using splitComma_of_no_comma w (hl w (by simp))
    | cons v vs =>
      have hw : ',' ∉ w := hl w (by simp)
      have htl : ∀ u ∈ v :: vs, ',' ∉ u := fun u hu => hl u (List.mem_cons_of_mem _ hu)
      simp only [joinComma]
      rw [splitComma_append_comma w _ hw, ih (by simp) htl]

theorem joinComma_eq_nil (l : List (List Char)) (h : joinComma l = []) :
    l = [] ∨ l = [[]] := by
  match l, h with
  | [], _ => exact Or.inl rfl
  | [w], h => right; simp [joinComma] at h; simp [h]
  | w :: v :: ws, h => simp [joinComma] at h

theorem stringsSplit_stringsJoin (b : List String) (hne : b ≠ [])
    (hb : ∀ t ∈ b, ',' ∉ t.data) : stringsSplit (stringsJoin b) = b := by
  unfold stringsSplit stringsJoin
  have h1 : b.map String.data ≠ [] := by simpa using hne
  have h2 : ∀ w ∈ b.map String.data, ',' ∉ w := by
    intro w hw
    obtain ⟨t, ht, rfl⟩ := List.mem_map.mp hw
    exact hb t ht
  simp only [splitComma_joinComma _ h1 h2, List.map_map]
  conv_rhs => rw [← List.map_id b]
  apply List.map_congr_left
  intro t _
  rfl

theorem stringsJoin_ne_empty (b : List String) (hne : b ≠ []) (hb : b ≠ [""]) :
    stringsJoin b ≠ "" := by
  intro hc
  have hd : joinComma (b.map String.data) = [] := by
    have := congrArg String.data hc
    simpa [stringsJoin] using this
  rcases joinComma_eq_nil _ hd with h | h
  · exact hne (by simpa using h)
  · apply hb
    cases b with
    | nil => simp at h
    | cons t ts =>
      cases ts with
      | cons u us => simp at h
      | nil =>
        simp only [List.map_cons, List.map_nil, List.cons.injEq, and_true] at h
        have : t = "" := by
          cases t with
          | mk d => simp only at h; subst h; rfl
        rw [this]

/-- What `getHosts` shows as `RunningTasks` for a row whose column holds
`strings.Join(b, ",")`. -/
theorem scanRow_runningTasks_join (E : Env) (now : Int) (r : Row) (b : List String)
    (hb : ∀ t ∈ b, ',' ∉ t.data) (hne : b ≠ [""])
    (hr : r.runningTasks = stringsJoin b) :
    (model.scanRow E now r).RunningTasks = b := by
  simp only [model.scanRow, hr]
  by_cases hnil : b = []
  · subst hnil
    have : stringsJoin [] = "" := by decide
    simp [this]
  · simp only [ne_eq, stringsJoin_ne_empty b hnil hne, not_false_eq_true, if_true]
    exact stringsSplit_stringsJoin b hnil hb

/-! ## Registration (C3, C9) -/

open model in
/-- C9: on a store with no record at address `ip:port`, and with `utils.GetID()`
returning an id no stored record has, `RegistryNewHost` returns that id with a nil
error and the store becomes the old store plus one row: the returned id, address
`ip:port`, the request's hostname, weight, version and remark, last heartbeat
`now`, no running tasks, stop flag 0.  A read of the address then shows that one
host with an empty `RunningTasks` and `Stop = 0`. -/
theorem RegistryNewHost_new_address (E : Env) (db : Store) (now now2 : Int) (newid : String)
    (req : RegistryReq)
    (habsent : ∀ r ∈ db, r.addr ≠ sprintfAddr req.Ip req.Port)
    (hfresh : ∀ r ∈ db, r.id ≠ newid) :
    RegistryNewHost E db now newid req =
      (.ok newid,
       db ++ [{ id := newid, hostname := req.Hostname, addr := sprintfAddr req.Ip req.Port,
                weight := req.Weight, version := req.Version, lastUpdateTimeUnix := now,
                remark := req.Remark, runningTasks := "", stop := 0 }]) ∧
    ∃ h : Host,
      getHosts E (RegistryNewHost E db now newid req).2 now2
        (sprintfAddr req.Ip req.Port) [] 0 0 = .ok [h] ∧
      h.ID = newid ∧ h.RunningTasks = [] ∧ h.Stop = 0 ∧ h.LastUpdateTimeUnix = now := by
  have hreg := RegistryNewHost_absent E db now newid req habsent hfresh
  refine ⟨hreg, scanRow E now2 (newRow now newid req), ?_, rfl, rfl, rfl, rfl⟩
  have hfil : db.filter (fun r => decide (r.addr = sprintfAddr req.Ip req.Port)) = [] := by
    rw [List.filter_eq_nil_iff]
    intro r hr
    simpa using habsent r hr
  rw [hreg, getHosts_noIds, selectRows_sprintfAddr]
  simp [List.filter_append, hfil, newRow]

open model in
/-- Witness of C9: registering `10.0.0.3:9000` on the store holding `h1`, `h2`. -/
theorem RegistryNewHost_new_address_witness :
    (∀ r ∈ [rowA, rowB], r.addr ≠ sprintfAddr "10.0.0.3" 9000) ∧
    (∀ r ∈ [rowA, rowB], r.id ≠ "h3") ∧
    RegistryNewHost Env.sample [rowA, rowB] 50 "h3"
        { Ip := "10.0.0.3", Port := 9000, Hostname := "gamma", Weight := 7,
          Version := "v2", Remark := "" } =
      (.ok "h3",
       [rowA, rowB] ++ [{ id := "h3", hostname := "gamma", addr := sprintfAddr "10.0.0.3" 9000,
                          weight := 7, version := "v2", lastUpdateTimeUnix := 50,
                          remark := "", runningTasks := "", stop := 0 }]) :=
  ⟨by decide, by decide,
   (RegistryNewHost_new_address Env.sample [rowA, rowB] 50 60 "h3"
      { Ip := "10.0.0.3", Port := 9000, Hostname := "gamma", Weight := 7,
        Version := "v2", Remark := "" } (by decide) (by decide)).1⟩

open model in
/-- C3: on a store with at most one record per address, and with `utils.GetID()`
returning an id no stored record has, two calls of `RegistryNewHost` with the same
ip and port: the first call returns a nil error (it either creates the record
under the generated id or finds the address and leaves the store alone), the
second call returns the empty id with a nil error and leaves the store exactly as
the first call left it, and that store holds exactly one record with address
`ip:port`. -/
theorem RegistryNewHost_twice (E : Env) (db : Store) (now1 now2 : Int) (id1 id2 : String)
    (req1 req2 : RegistryReq)
    (huniq : AddrUnique db) (hfresh : ∀ r ∈ db, r.id ≠ id1)
    (hip : req2.Ip = req1.Ip) (hport : req2.Port = req1.Port) :
    RegistryNewHost E (RegistryNewHost E db now1 id1 req1).2 now2 id2 req2 =
      (.ok "", (RegistryNewHost E db now1 id1 req1).2) ∧
    ((RegistryNewHost E db now1 id1 req1).2.filter
      (fun r => decide (r.addr = sprintfAddr req1.Ip req1.Port))).length = 1 ∧
    (((RegistryNewHost E db now1 id1 req1).1 = .ok id1 ∧
        ∃ r ∈ (RegistryNewHost E db now1 id1 req1).2,
          r.id = id1 ∧ r.addr = sprintfAddr req1.Ip req1.Port) ∨
     ((RegistryNewHost E db now1 id1 req1).1 = .ok "" ∧
        (RegistryNewHost E db now1 id1 req1).2 = db)) := by
  have hle := huniq (sprintfAddr req1.Ip req1.Port)
  have haddr2 : sprintfAddr req2.Ip req2.Port = sprintfAddr req1.Ip req1.Port := by
    rw [hip, hport]
  by_cases hone : (db.filter
      (fun r => decide (r.addr = sprintfAddr req1.Ip req1.Port))).length = 1
  · have h1 := RegistryNewHost_present E db now1 id1 req1 hone
    have h2 := RegistryNewHost_present E db now2 id2 req2 (by rw [haddr2]; exact hone)
    rw [h1]
    exact ⟨h2, hone, Or.inr ⟨rfl, rfl⟩⟩
  · have hzero : (db.filter
        (fun r => decide (r.addr = sprintfAddr req1.Ip req1.Port))).length = 0 := by omega
    have hfil := List.length_eq_zero.mp hzero
    have habsent : ∀ r ∈ db, r.addr ≠ sprintfAddr req1.Ip req1.Port := by
      intro r hr
      have := (List.filter_eq_nil_iff.mp hfil) r hr
      simpa using this
    have h1 := RegistryNewHost_absent E db now1 id1 req1 habsent hfresh
    have hcount : ((db ++ [newRow now1 id1 req1]).filter
        (fun r => decide (r.addr = sprintfAddr req1.Ip req1.Port))).length = 1 := by
      simp [List.filter_append, hfil, newRow]
    have h2 := RegistryNewHost_present E (db ++ [newRow now1 id1 req1]) now2 id2 req2
      (by rw [haddr2]; exact hcount)
    rw [h1]
    refine ⟨h2, hcount, Or.inl ⟨rfl, newRow now1 id1 req1, by simp, rfl, rfl⟩⟩

open model in
/-- Witness of C3: registering `10.0.0.3:9000` twice on the store holding `h1`, `h2`. -/
theorem RegistryNewHost_twice_witness :
    AddrUnique [rowA, rowB] ∧ (∀ r ∈ [rowA, rowB], r.id ≠ "h3") ∧
    RegistryNewHost Env.sample
        (RegistryNewHost Env.sample [rowA, rowB] 50 "h3"
          { Ip := "10.0.0.3", Port := 9000, Hostname := "gamma", Weight := 7,
            Version := "v2", Remark := "" }).2 60 "h4"
        { Ip := "10.0.0.3", Port := 9000, Hostname := "delta", Weight := 9,
          Version := "v3", Remark := "again" } =
      (.ok "",
       (RegistryNewHost Env.sample [rowA, rowB] 50 "h3"
          { Ip := "10.0.0.3", Port := 9000, Hostname := "gamma", Weight := 7,
            Version := "v2", Remark := "" }).2) :=
  have hu : AddrUnique [rowA, rowB] := by
    intro a
    by_cases h1 : rowA.addr = a <;> by_cases h2 : rowB.addr = a
    · exact absurd (h1.trans h2.symm) (by decide)
    · simp [List.filter, h1, h2]
    · simp [List.filter, h1, h2]
    · simp [List.filter, h1, h2]
  ⟨hu, by decide,
   (RegistryNewHost_twice Env.sample [rowA, rowB] 50 60 "h3" "h4"
      { Ip := "10.0.0.3", Port := 9000, Hostname := "gamma", Weight := 7,
        Version := "v2", Remark := "" }
      { Ip := "10.0.0.3", Port := 9000, Hostname := "delta", Weight := 9,
        Version := "v3", Remark := "again" } hu (by decide) rfl rfl).1⟩


/-! ## Heartbeat (C4) -/

namespace model

theorem UpdateHostHearbeat_mem (db : Store) (now : Int) (ip : String) (port : Int)
    (tasks : List String) (r : Row)
    (hr : r ∈ (UpdateHostHearbeat db now ip port tasks).2)
    (haddr : r.addr = sprintfAddr ip port) :
    r.runningTasks = stringsJoin tasks ∧ r.lastUpdateTimeUnix = now := by
  simp only [UpdateHostHearbeat, List.mem_map] at hr
  obtain ⟨r0, _, hr0⟩ := hr
  by_cases hc : r0.addr = sprintfAddr ip port
  · rw [if_pos hc] at hr0
    subst hr0
    exact ⟨rfl, rfl⟩
  · rw [if_neg hc] at hr0
    subst hr0
    exact absurd haddr hc

theorem UpdateHostHearbeat_filter_length (db : Store) (now : Int) (ip : String) (port : Int)
    (tasks : List String) :
    ((UpdateHostHearbeat db now ip port tasks).2.filter
      (fun r => decide (r.addr = sprintfAddr ip port))).length =
    (db.filter (fun r => decide (r.addr = sprintfAddr ip port))).length := by
  simp only [UpdateHostHearbeat, List.filter_map, List.length_map]
  congr 2
  funext r
  by_cases hc : r.addr = sprintfAddr ip port
  · simp [Function.comp, hc]
  · simp [Function.comp, hc]

end model

open model in
/-- Counterexample to C4: on the store holding `h1` at `10.0.0.1:9000`, after a
heartbeat with tasks `["t1"]` and a heartbeat with the single task id `"t,2"`, the
read shows the two tasks `"t"` and `"2"`; after a heartbeat with the single empty
task id `""`, the read shows no task at all. -/
theorem UpdateHostHearbeat_overwrite_counterexample :
    rowA.addr = sprintfAddr "10.0.0.1" 9000 ∧
    (getHosts Env.sample
        (UpdateHostHearbeat (UpdateHostHearbeat [rowA] 1 "10.0.0.1" 9000 ["t1"]).2
          2 "10.0.0.1" 9000 ["t,2"]).2 3 (sprintfAddr "10.0.0.1" 9000) [] 0 0).map
      (List.map Host.RunningTasks) = .ok [["t", "2"]] ∧
    (getHosts Env.sample
        (UpdateHostHearbeat (UpdateHostHearbeat [rowA] 1 "10.0.0.1" 9000 ["t1"]).2
          2 "10.0.0.1" 9000 [""]).2 3 (sprintfAddr "10.0.0.1" 9000) [] 0 0).map
      (List.map Host.RunningTasks) = .ok [[]] := by
  decide

open model in
/-- C4 (amended): on a store with a record at address `ip:port`, for task-id lists
`a` and `b` where no id of `b` contains a comma and `b` is not the list of one
empty id, after `UpdateHostHearbeat(ip, port, a)` and then
`UpdateHostHearbeat(ip, port, b)` a read of that address by `getHosts` returns as
many hosts as the store had records at the address (at least one), each with
`RunningTasks` equal to `b` and the second heartbeat's time; when that is one
host, `GetHostByAddr` returns it, with `RunningTasks` equal to `b`. -/
theorem UpdateHostHearbeat_overwrite (E : Env) (db : Store) (now1 now2 now : Int)
    (ip : String) (port : Int) (a b : List String)
    (hex : ∃ r ∈ db, r.addr = sprintfAddr ip port)
    (hcomma : ∀ t ∈ b, ',' ∉ t.data) (hb : b ≠ [""]) :
    ∃ hosts : List Host,
      getHosts E (UpdateHostHearbeat (UpdateHostHearbeat db now1 ip port a).2
        now2 ip port b).2 now (sprintfAddr ip port) [] 0 0 = .ok hosts ∧
      hosts ≠ [] ∧
      hosts.length = (db.filter (fun r => decide (r.addr = sprintfAddr ip port))).length ∧
      (∀ h ∈ hosts, h.RunningTasks = b ∧ h.LastUpdateTimeUnix = now2) ∧
      (hosts.length = 1 →
        ∃ h : Host, GetHostByAddr E (UpdateHostHearbeat (UpdateHostHearbeat db now1 ip port a).2
          now2 ip port b).2 now (sprintfAddr ip port) = .ok h ∧ h.RunningTasks = b) := by
  suffices hmain : ∃ hosts : List Host,
      getHosts E (UpdateHostHearbeat (UpdateHostHearbeat db now1 ip port a).2
        now2 ip port b).2 now (sprintfAddr ip port) [] 0 0 = .ok hosts ∧
      hosts ≠ [] ∧
      hosts.length = (db.filter (fun r => decide (r.addr = sprintfAddr ip port))).length ∧
      (∀ h ∈ hosts, h.RunningTasks = b ∧ h.LastUpdateTimeUnix = now2) by
    obtain ⟨hosts, hget, hne, hlen, hall⟩ := hmain
    refine ⟨hosts, hget, hne, hlen, hall, ?_⟩
    intro hone
    obtain ⟨h, rfl⟩ := List.length_eq_one.mp hone
    refine ⟨h, ?_, (hall h (by simp)).1⟩
    simp only [GetHostByAddr, hget]
  refine ⟨_, getHosts_noIds E _ now _, ?_, ?_, ?_⟩
  · obtain ⟨r, hr, haddr⟩ := hex
    have hpos : 0 < (db.filter (fun r => decide (r.addr = sprintfAddr ip port))).length :=
      List.length_pos_of_mem (List.mem_filter.mpr ⟨hr, by simpa using haddr⟩)
    intro hnil
    have hlen := congrArg List.length hnil
    rw [List.length_map, selectRows_sprintfAddr, UpdateHostHearbeat_filter_length,
      UpdateHostHearbeat_filter_length] at hlen
    simp only [List.length_nil] at hlen
    omega
  · rw [List.length_map, selectRows_sprintfAddr, UpdateHostHearbeat_filter_length,
      UpdateHostHearbeat_filter_length]
  · intro h hh
    obtain ⟨r, hr, rfl⟩ := List.mem_map.mp hh
    rw [selectRows_sprintfAddr] at hr
    obtain ⟨hmem, haddr⟩ := List.mem_filter.mp hr
    have haddr2 : r.addr = sprintfAddr ip port := by simpa using haddr
    obtain ⟨htasks, htime⟩ := UpdateHostHearbeat_mem _ now2 ip port b r hmem haddr2
    exact ⟨scanRow_runningTasks_join E now r b hcomma hb htasks, htime⟩

open model in
/-- Witness of C4 (amended): heartbeats `["t1", "t2"]` then `["t3"]` for `h1`. -/
theorem UpdateHostHearbeat_overwrite_witness :
    (∃ r ∈ [rowA, rowB], r.addr = sprintfAddr "10.0.0.1" 9000) ∧
    (∀ t ∈ ["t3"], ',' ∉ t.data) ∧ ["t3"] ≠ [""] ∧
    ∃ hosts : List Host,
      getHosts Env.sample (UpdateHostHearbeat
        (UpdateHostHearbeat [rowA, rowB] 1 "10.0.0.1" 9000 ["t1", "t2"]).2
        2 "10.0.0.1" 9000 ["t3"]).2 3 (sprintfAddr "10.0.0.1" 9000) [] 0 0 = .ok hosts ∧
      hosts ≠ [] ∧
      hosts.length = ([rowA, rowB].filter
        (fun r => decide (r.addr = sprintfAddr "10.0.0.1" 9000))).length ∧
      (∀ h ∈ hosts, h.RunningTasks = ["t3"] ∧ h.LastUpdateTimeUnix = 2) ∧
      (hosts.length = 1 →
        ∃ h : Host, GetHostByAddr Env.sample (UpdateHostHearbeat
          (UpdateHostHearbeat [rowA, rowB] 1 "10.0.0.1" 9000 ["t1", "t2"]).2
          2 "10.0.0.1" 9000 ["t3"]).2 3 (sprintfAddr "10.0.0.1" 9000) = .ok h ∧
          h.RunningTasks = ["t3"]) :=
  ⟨⟨rowA, by simp, by decide⟩, by decide, by decide,
   UpdateHostHearbeat_overwrite Env.sample [rowA, rowB] 1 2 3 "10.0.0.1" 9000
     ["t1", "t2"] ["t3"] ⟨rowA, by simp, by decide⟩ (by decide) (by decide)⟩

end Crocodile
